import Mathlib

/-!
Shallow embedding of src/CollisionSensor/Src/lcd.c (the current revision,
lines 1-379), the Nokia 5110 LCD driver of the CollisionSensingHat project.

The driver emits a stream of bytes over SPI, each byte framed either as a
command byte (mode-select line low) or as a data byte (mode-select line
high).  We model an execution of a driver routine as the list of framed
bytes it emits, in order.  Hardware-only concerns (GPIO registers, SPI
status polling, chip-select toggling) carry no software-visible state and
are not part of any claim, so a byte send is modelled as the single framed
byte it transports.

The glyph table ascii_to_lcd lives in lcd.h, which is not part of src/;
the C code consults only whether individual table entries are zero, so all
renderer definitions are parametrized by the table, modelled as a total
function tab : Nat -> Nat -> Nat (row index = character code minus 32,
column index 0..4, value = the 8-bit column pattern).

Characters and strings are modelled as their ASCII codes (Nat); machine
integers are Nat with explicit wrap-around (mod 256 for uint8_t) exactly
where the C code can overflow.  Loops with non-structural measure are
written with an explicit fuel argument large enough for every reachable
input, so that every definition evaluates by kernel reduction.
-/

/-- One byte emitted to the LCD, tagged with its command/data framing. -/
inductive LCDByte where
  | cmd (b : Nat)
  | data (b : Nat)
  deriving DecidableEq, Repr

/-- LCD_SendCommand: pulls the mode line low and transports one byte. -/
def LCD_SendCommand (b : Nat) : List LCDByte := [LCDByte.cmd b]

/-- LCD_SendData: pulls the mode line high and transports one byte. -/
def LCD_SendData (b : Nat) : List LCDByte := [LCDByte.data b]

/-- LCD_SetX: `if (x > 83) return; LCD_SendCommand(0x80 | x);`
(x is a uint8_t, so 0 <= x <= 255). -/
def LCD_SetX (x : Nat) : List LCDByte :=
  if 83 < x then [] else LCD_SendCommand (0x80 ||| x)

/-- LCD_SetY: `if (y > 5) return; LCD_SendCommand(0x40 | y);` -/
def LCD_SetY (y : Nat) : List LCDByte :=
  if 5 < y then [] else LCD_SendCommand (0x40 ||| y)

/-- LCD_ResetX: `LCD_SetX(0x0);` -/
def LCD_ResetX : List LCDByte := LCD_SetX 0

/-- LCD_ResetY: `LCD_SetY(0x0);` -/
def LCD_ResetY : List LCDByte := LCD_SetY 0

/-- LCD_Reset: `LCD_ResetX(); LCD_ResetY();` -/
def LCD_Reset : List LCDByte := LCD_ResetX ++ LCD_ResetY

/-- LCD_ClearDisplay: `LCD_Reset();` then
`for (int i = 0; i < (84*48/8); i++) LCD_SendData(0x00);` -/
def LCD_ClearDisplay : List LCDByte :=
  LCD_Reset ++ List.flatten ((List.range (84 * 48 / 8)).map fun _ => LCD_SendData 0)

/-- Iteration count of the LCD_ClearRow loop: the C bound `84 - x` is
computed in signed int arithmetic (x : uint8_t is promoted to int), so a
start column beyond 83 yields a negative bound and zero iterations. -/
def clearRowCount (x : Nat) : Nat := ((84 : Int) - (x : Int)).toNat

/-- LCD_ClearRow: `LCD_SetY(y); LCD_SetX(x);` then
`for (int i = 0; i < (84-x); i++) LCD_SendData(0x00);` -/
def LCD_ClearRow (y x : Nat) : List LCDByte :=
  LCD_SetY y ++ LCD_SetX x ++
    List.flatten ((List.range (clearRowCount x)).map fun _ => LCD_SendData 0)

/-- LCD_PrintCharacter: index = c - 32; optional leading blank column when
the first glyph column is non-zero, the five glyph columns, optional
trailing blank column when the fifth glyph column is non-zero. -/
def LCD_PrintCharacter (tab : Nat → Nat → Nat) (c : Nat) : List LCDByte :=
  (if tab (c - 32) 0 ≠ 0 then LCD_SendData 0 else []) ++
    List.flatten ((List.range 5).map fun i => LCD_SendData (tab (c - 32) i)) ++
    (if tab (c - 32) 4 ≠ 0 then LCD_SendData 0 else [])

/-- LCD_PrintString: `for (int i = 0; i < sz; i++) LCD_PrintCharacter(str[i]);`
with sz = the length of the modelled string. -/
def LCD_PrintString (tab : Nat → Nat → Nat) (str : List Nat) : List LCDByte :=
  List.flatten (str.map (LCD_PrintCharacter tab))

/-- Extra spacer columns contributed by one character in the width count of
LCD_PrintStringCentered (one per outer glyph column that is non-zero). -/
def charExtra (tab : Nat → Nat → Nat) (c : Nat) : Nat :=
  (if tab (c - 32) 0 ≠ 0 then 1 else 0) + (if tab (c - 32) 4 ≠ 0 then 1 else 0)

/-- The numCol accumulator of LCD_PrintStringCentered.  numCol is a uint8_t
initialized to `sz*5` (truncated mod 256) and incremented (with wrap-around)
once per non-zero outer glyph column; folding the increments and taking one
final mod 256 is equal to the step-by-step wrap. -/
def numColOf (tab : Nat → Nat → Nat) (str : List Nat) : Nat :=
  (str.foldl (fun acc c => acc + charExtra tab c) (str.length * 5)) % 256

/-- The argument LCD_PrintStringCentered passes to LCD_SetX.  The C source
computes `(84 - numCol) / 2` in signed int arithmetic (truncation toward
zero) and the result is converted to uint8_t (mod 256) at the call:
for numCol <= 84 this is (84 - numCol) / 2; for larger numCol the quotient
is -((numCol - 84) / 2) and the conversion adds 256. -/
def centeredX (numCol : Nat) : Nat :=
  if numCol ≤ 84 then (84 - numCol) / 2
  else (256 - (numCol - 84) / 2) % 256

/-- LCD_PrintStringCentered: counts the rendered width into a uint8_t, sets
the start column, then delegates to LCD_PrintString. -/
def LCD_PrintStringCentered (tab : Nat → Nat → Nat) (str : List Nat) : List LCDByte :=
  LCD_SetX (centeredX (numColOf tab str)) ++ LCD_PrintString tab str

/-- ASCII codes of the literal string OUT OF RANGE. -/
def outOfRangeText : List Nat := [79, 85, 84, 32, 79, 70, 32, 82, 65, 78, 71, 69]

/-- Digit-extraction body of uintToStr, the do/while loop
`do { buf[charsWritten++] = '0' + (dist % 10); dist /= 10; } while (dist > 0);`
written least-significant digit first.  The fuel argument only bounds the
recursion; uintToStr supplies fuel dist + 1, which always exceeds the
number of iterations because dist strictly decreases under division by 10. -/
def toDigitsRevGo : Nat → Nat → List Nat
  | 0, _ => []
  | fuel + 1, dist =>
      (48 + dist % 10) :: (if 0 < dist / 10 then toDigitsRevGo fuel (dist / 10) else [])

/-- The buffer contents written by the uintToStr extraction loop, in write
order (least-significant digit first). -/
def toDigitsRev (dist : Nat) : List Nat := toDigitsRevGo (dist + 1) dist

/-- In-place reversal loop of uintToStr:
`for (int i = 0, j = charsWritten-1; i < j; i++, j--) swap(buf[i], buf[j]);`
modelled on the written region of the buffer.  Each swap reads both cells
of the original list before writing (the C code uses a temp variable).
The fuel argument only bounds the recursion; uintToStr supplies the length
of the written region, which exceeds the floor(length/2) iterations. -/
def revLoopGo : Nat → List Nat → Nat → Nat → List Nat
  | 0, buf, _, _ => buf
  | fuel + 1, buf, i, j =>
      if i < j then
        revLoopGo fuel ((buf.set i (buf.getD j 0)).set j (buf.getD i 0)) (i + 1) (j - 1)
      else buf

/-- uintToStr: returns the charsWritten characters placed in the buffer
(after the in-place reversal) together with the returned count. -/
def uintToStr (dist : Nat) : List Nat × Nat :=
  let buf := toDigitsRev dist
  let charsWritten := buf.length
  (revLoopGo charsWritten buf 0 (charsWritten - 1), charsWritten)

/-- LCD_PrintMeasurement: clears row 2 from column 0, addresses row 2, and
either renders the OUT OF RANGE literal (dist > 4500) or the decimal text
of dist with the unit suffix appended in place, centered. -/
def LCD_PrintMeasurement (tab : Nat → Nat → Nat) (dist : Nat) (units : List Nat) :
    List LCDByte :=
  LCD_ClearRow 2 0 ++ LCD_SetY 2 ++
    (if 4500 < dist then LCD_PrintStringCentered tab outOfRangeText
     else LCD_PrintStringCentered tab ((uintToStr dist).1 ++ units))

/-- LCD_PrintTempMeasurement: clears row 4 from column 0, addresses row 4,
then tests the C condition `temp > 158 || temp < 0 || temp > 158 || temp < 0`
verbatim (temp is unsigned, so the `temp < 0` disjuncts are always false,
and temp2 is never tested); otherwise both values are formatted with their
unit suffixes and joined by a single space into one centered line. -/
def LCD_PrintTempMeasurement (tab : Nat → Nat → Nat) (temp : Nat) (units : List Nat)
    (temp2 : Nat) (units2 : List Nat) : List LCDByte :=
  LCD_ClearRow 4 0 ++ LCD_SetY 4 ++
    (if 158 < temp ∨ temp < 0 ∨ 158 < temp ∨ temp < 0 then
       LCD_PrintStringCentered tab outOfRangeText
     else
       LCD_PrintStringCentered tab
         (((uintToStr temp).1 ++ units) ++ [32] ++ ((uintToStr temp2).1 ++ units2)))

/-- Re-parse a list of ASCII digit codes as a decimal numeral (most
significant digit first); the spec side of the round-trip law. -/
def parseDec (l : List Nat) : Nat := l.foldl (fun acc d => acc * 10 + (d - 48)) 0

/-- Recognizer for data bytes in an emitted trace. -/
def isDataByte : LCDByte → Bool
  | LCDByte.data _ => true
  | LCDByte.cmd _ => false

/-- Rendered pixel width of a string: 5 columns per character plus one
column per non-zero outer glyph column (the width LCD_PrintCharacter
actually emits). -/
def stringWidth (tab : Nat → Nat → Nat) (str : List Nat) : Nat :=
  (str.map fun c => 5 + charExtra tab c).sum

/-- Number of iterations of the digit-extraction do/while loop (one
character is written per iteration). -/
def digitLoopIters (v : Nat) : Nat := (toDigitsRev v).length

/-- Iteration counter of the in-place reversal loop, mirroring revLoopGo. -/
def revLoopItersGo : Nat → Nat → Nat → Nat
  | 0, _, _ => 0
  | fuel + 1, i, j => if i < j then 1 + revLoopItersGo fuel (i + 1) (j - 1) else 0

/-- Iterations of the reversal loop on a written region of given length. -/
def revLoopIters (len : Nat) : Nat := revLoopItersGo len 0 (len - 1)

/-- A concrete glyph table (all columns blank) used to instantiate the
table-parametric theorems on closed inputs. -/
def tab0 : Nat → Nat → Nat := fun _ _ => 0

/-! ## Helper lemmas -/

/-- A loop that sends one zero data byte per iteration emits a replicate. -/
theorem flatten_sendData_zero :
    ∀ n : Nat, List.flatten ((List.range n).map fun _ => LCD_SendData 0)
      = List.replicate n (LCDByte.data 0) := by
  intro n
  induction n with
  | zero => rfl
  | succ n ih =>
      rw [List.range_succ, List.map_append, List.flatten_append, ih]
      rw [show List.replicate (n + 1) (LCDByte.data 0)
            = List.replicate n (LCDByte.data 0) ++ List.replicate 1 (LCDByte.data 0)
          from List.replicate_add n 1 (LCDByte.data 0)]
      rfl

/-- Folding additions of a mapped function over a list from an accumulator. -/
theorem foldl_add_map (e : Nat → Nat) :
    ∀ (l : List Nat) (a : Nat),
      l.foldl (fun acc c => acc + e c) a = a + (l.map e).sum := by
  intro l
  induction l with
  | nil => intro a; simp
  | cons c t ih => intro a; rw [List.foldl_cons, ih]; simp [List.sum_cons]; omega

/-- Summing per-character widths splits into the base width and the extras. -/
theorem sum_map_five_add (e : Nat → Nat) :
    ∀ l : List Nat, (l.map fun c => 5 + e c).sum = 5 * l.length + (l.map e).sum := by
  intro l
  induction l with
  | nil => simp
  | cons c t ih => simp [List.sum_cons, ih]; omega

/-- LCD_PrintCharacter unfolded to its three segments. -/
theorem printCharacter_eq (tab : Nat → Nat → Nat) (c : Nat) :
    LCD_PrintCharacter tab c =
      (if tab (c - 32) 0 ≠ 0 then [LCDByte.data 0] else [])
      ++ [LCDByte.data (tab (c - 32) 0), LCDByte.data (tab (c - 32) 1),
          LCDByte.data (tab (c - 32) 2), LCDByte.data (tab (c - 32) 3),
          LCDByte.data (tab (c - 32) 4)]
      ++ (if tab (c - 32) 4 ≠ 0 then [LCDByte.data 0] else []) := rfl

/-- A character occupies exactly 5 columns plus its spacer columns. -/
theorem printCharacter_length (tab : Nat → Nat → Nat) (c : Nat) :
    (LCD_PrintCharacter tab c).length = 5 + charExtra tab c := by
  rw [printCharacter_eq]
  unfold charExtra
  by_cases h0 : tab (c - 32) 0 = 0 <;> by_cases h4 : tab (c - 32) 4 = 0 <;>
    simp [h0, h4]

/-- The trace of LCD_PrintString has exactly the rendered pixel width. -/
theorem printString_length (tab : Nat → Nat → Nat) :
    ∀ str : List Nat, (LCD_PrintString tab str).length = stringWidth tab str := by
  intro str
  induction str with
  | nil => rfl
  | cons c t ih =>
      show (LCD_PrintCharacter tab c ++ LCD_PrintString tab t).length = _
      rw [List.length_append, printCharacter_length, ih]
      show 5 + charExtra tab c + stringWidth tab t = stringWidth tab (c :: t)
      simp [stringWidth, List.sum_cons]

/-- The uint8_t width accumulator equals the true rendered width mod 256. -/
theorem numColOf_eq_width (tab : Nat → Nat → Nat) (str : List Nat) :
    numColOf tab str = stringWidth tab str % 256 := by
  unfold numColOf stringWidth
  rw [foldl_add_map, sum_map_five_add]
  omega

/-! ## Claim theorems for the addressing and clearing layer -/

/-- C3: for every x in [0,83], LCD_SetX issues exactly the single command
byte 0x80 | x, and for every x > 83 it issues nothing; for every y in
[0,5], LCD_SetY issues exactly the single command byte 0x40 | y, and for
every y > 5 it issues nothing. -/
theorem setXY_spec :
    (∀ x : Nat, x ≤ 83 → LCD_SetX x = [LCDByte.cmd (0x80 ||| x)])
    ∧ (∀ x : Nat, 83 < x → LCD_SetX x = [])
    ∧ (∀ y : Nat, y ≤ 5 → LCD_SetY y = [LCDByte.cmd (0x40 ||| y)])
    ∧ (∀ y : Nat, 5 < y → LCD_SetY y = []) := by
  refine ⟨fun x hx => ?_, fun x hx => ?_, fun y hy => ?_, fun y hy => ?_⟩
  · unfold LCD_SetX; rw [if_neg (by omega)]; rfl
  · unfold LCD_SetX; rw [if_pos hx]
  · unfold LCD_SetY; rw [if_neg (by omega)]; rfl
  · unfold LCD_SetY; rw [if_pos hy]

/-- Witness for setXY_spec at the boundary inputs 83, 84, 5 and 6. -/
theorem setXY_spec_witness :
    LCD_SetX 83 = [LCDByte.cmd (0x80 ||| 83)] ∧ LCD_SetX 84 = []
    ∧ LCD_SetY 5 = [LCDByte.cmd (0x40 ||| 5)] ∧ LCD_SetY 6 = [] :=
  ⟨setXY_spec.1 83 (by decide), setXY_spec.2.1 84 (by decide),
   setXY_spec.2.2.1 5 (by decide), setXY_spec.2.2.2 6 (by decide)⟩

set_option maxRecDepth 4000 in
/-- C6: LCD_ClearDisplay first resets the cursor to column 0 and row-group
0 (command bytes 0x80 then 0x40) and then emits exactly 84*48/8 = 504 zero
data bytes and nothing else. -/
theorem clearDisplay_spec :
    LCD_ClearDisplay
      = [LCDByte.cmd 0x80, LCDByte.cmd 0x40]
        ++ List.replicate (84 * 48 / 8) (LCDByte.data 0)
    ∧ LCD_ClearDisplay.filter isDataByte = List.replicate 504 (LCDByte.data 0) := by
  decide

/-- C7: LCD_PrintCharacter emits exactly one leading 0x00 spacer data byte
iff the first glyph column is non-zero, then the five glyph columns in
order, then exactly one trailing 0x00 spacer data byte iff the fifth glyph
column is non-zero; the two spacer decisions are independent. -/
theorem printCharacter_spec (tab : Nat → Nat → Nat) (c : Nat) (hc : 32 ≤ c) :
    LCD_PrintCharacter tab c =
      List.replicate (if tab (c - 32) 0 ≠ 0 then 1 else 0) (LCDByte.data 0)
      ++ [LCDByte.data (tab (c - 32) 0), LCDByte.data (tab (c - 32) 1),
          LCDByte.data (tab (c - 32) 2), LCDByte.data (tab (c - 32) 3),
          LCDByte.data (tab (c - 32) 4)]
      ++ List.replicate (if tab (c - 32) 4 ≠ 0 then 1 else 0) (LCDByte.data 0) := by
  rw [printCharacter_eq]
  by_cases h0 : tab (c - 32) 0 = 0 <;> by_cases h4 : tab (c - 32) 4 = 0 <;>
    simp [h0, h4]

/-- Witness for printCharacter_spec at character code 65 with tab0. -/
theorem printCharacter_spec_witness :
    LCD_PrintCharacter tab0 65 =
      List.replicate (if tab0 (65 - 32) 0 ≠ 0 then 1 else 0) (LCDByte.data 0)
      ++ [LCDByte.data (tab0 (65 - 32) 0), LCDByte.data (tab0 (65 - 32) 1),
          LCDByte.data (tab0 (65 - 32) 2), LCDByte.data (tab0 (65 - 32) 3),
          LCDByte.data (tab0 (65 - 32) 4)]
      ++ List.replicate (if tab0 (65 - 32) 4 ≠ 0 then 1 else 0) (LCDByte.data 0) :=
  printCharacter_spec tab0 65 (by decide)

/-! ## uintToStr: digit extraction and reversal -/

/-- The extraction loop does not depend on the fuel once the fuel exceeds
the working value (the value strictly decreases under division by 10). -/
theorem toDigitsRevGo_congr :
    ∀ f g d : Nat, d < f → d < g → toDigitsRevGo f d = toDigitsRevGo g d := by
  intro f
  induction f with
  | zero => intro g d hf; omega
  | succ f ih =>
      intro g d hf hg
      cases g with
      | zero => omega
      | succ g =>
          show ((48 + d % 10) :: _ : List Nat) = (48 + d % 10) :: _
          by_cases h0 : 0 < d / 10
          · rw [if_pos h0, if_pos h0, ih g (d / 10) (by omega) (by omega)]
          · rw [if_neg h0, if_neg h0]

/-- Unfolding equation of the extraction loop, fuel eliminated. -/
theorem toDigitsRev_eq (d : Nat) :
    toDigitsRev d
      = (48 + d % 10) :: (if 0 < d / 10 then toDigitsRev (d / 10) else []) := by
  show toDigitsRevGo (d + 1) d = _
  show ((48 + d % 10) :: _ : List Nat) = _
  by_cases h0 : 0 < d / 10
  · rw [if_pos h0, if_pos h0,
      toDigitsRevGo_congr d (d / 10 + 1) (d / 10) (by omega) (by omega)]
    rfl
  · rw [if_neg h0, if_neg h0]

/-- The extraction loop always writes at least one character. -/
theorem toDigitsRev_length_pos (d : Nat) : 0 < (toDigitsRev d).length := by
  rw [toDigitsRev_eq]; simp

/-- A value below 10^(k+1) yields at most k+1 written characters. -/
theorem toDigitsRev_length_le :
    ∀ k d : Nat, d < 10 ^ (k + 1) → (toDigitsRev d).length ≤ k + 1 := by
  intro k
  induction k with
  | zero =>
      intro d hd
      rw [toDigitsRev_eq, if_neg (by omega : ¬ 0 < d / 10)]
      simp
  | succ k ih =>
      intro d hd
      rw [toDigitsRev_eq]
      by_cases h0 : 0 < d / 10
      · rw [if_pos h0]
        have hdiv : d / 10 < 10 ^ (k + 1) := by
          rw [pow_succ] at hd
          omega
        have := ih (d / 10) hdiv
        simp only [List.length_cons]
        omega
      · rw [if_neg h0]; simp

/-- Re-parsing the reversed written characters recovers the value. -/
theorem parseDec_toDigitsRev (d : Nat) : parseDec ((toDigitsRev d).reverse) = d := by
  rw [toDigitsRev_eq]
  by_cases h0 : 0 < d / 10
  · rw [if_pos h0, List.reverse_cons]
    show ((toDigitsRev (d / 10)).reverse ++ [48 + d % 10]).foldl
      (fun acc e => acc * 10 + (e - 48)) 0 = d
    rw [List.foldl_append]
    have ih := parseDec_toDigitsRev (d / 10)
    unfold parseDec at ih
    rw [ih]
    show d / 10 * 10 + (48 + d % 10 - 48) = d
    omega
  · rw [if_neg h0]
    show parseDec [48 + d % 10] = d
    unfold parseDec
    simp only [List.foldl_cons, List.foldl_nil]
    omega
termination_by d
decreasing_by omega

/-- The most significant written character is a digit code, and it is not
the zero digit when the value is positive. -/
theorem toDigitsRev_msd (d : Nat) (hd : 0 < d) :
    49 ≤ (toDigitsRev d).reverse.headD 0 ∧ (toDigitsRev d).reverse.headD 0 ≤ 57 := by
  rw [toDigitsRev_eq]
  by_cases h0 : 0 < d / 10
  · rw [if_pos h0, List.reverse_cons]
    have ih := toDigitsRev_msd (d / 10) h0
    have hne : (toDigitsRev (d / 10)).reverse ≠ [] := by
      rw [toDigitsRev_eq (d / 10)]
      simp
    obtain ⟨a, t, hat⟩ := List.exists_cons_of_ne_nil hne
    rw [hat] at ih ⊢
    simpa using ih
  · rw [if_neg h0]
    show 49 ≤ ([48 + d % 10] : List Nat).reverse.headD 0
      ∧ ([48 + d % 10] : List Nat).reverse.headD 0 ≤ 57
    simp only [List.reverse_singleton, List.headD_cons]
    omega
termination_by d
decreasing_by omega

/-- The in-place reversal loop run on the whole written region of a list of
at most five characters reverses it. -/
theorem revLoopGo_reverse_le5 (l : List Nat) (h : l.length ≤ 5) :
    revLoopGo l.length l 0 (l.length - 1) = l.reverse := by
  rcases l with _ | ⟨a, _ | ⟨b, _ | ⟨c, _ | ⟨d, _ | ⟨e, _ | ⟨f, t⟩⟩⟩⟩⟩⟩
  · rfl
  · rfl
  · rfl
  · rfl
  · rfl
  · rfl
  · simp only [List.length_cons] at h
    omega

/-- On the uint16_t domain the buffer returned by uintToStr is the reverse
of the extraction order, i.e. most significant digit first. -/
theorem uintToStr_fst (v : Nat) (hv : v ≤ 65535) :
    (uintToStr v).1 = (toDigitsRev v).reverse := by
  have hl : (toDigitsRev v).length ≤ 5 := by
    have h5 : (10 : Nat) ^ (4 + 1) = 100000 := by norm_num
    exact toDigitsRev_length_le 4 v (by omega)
  simpa [uintToStr] using revLoopGo_reverse_le5 (toDigitsRev v) hl

/-- The returned count is the number of characters written. -/
theorem uintToStr_snd (v : Nat) : (uintToStr v).2 = (toDigitsRev v).length := rfl

/-! ## Claim theorems for the readout formatter -/

/-- C2: uintToStr 0 writes the single character 0 and returns length 1;
uintToStr 4500 writes 4500 and returns length 4; and for every v in
[0, 65535], re-parsing the written characters as a decimal numeral yields
v again (round-trip law). -/
theorem uintToStr_spec :
    uintToStr 0 = ([48], 1)
    ∧ uintToStr 4500 = ([52, 53, 48, 48], 4)
    ∧ ∀ v : Nat, v ≤ 65535 → parseDec (uintToStr v).1 = v := by
  refine ⟨by decide, by decide, fun v hv => ?_⟩
  rw [uintToStr_fst v hv]
  exact parseDec_toDigitsRev v

/-- Witness for the round-trip law of uintToStr_spec at v = 12345. -/
theorem uintToStr_spec_witness : parseDec (uintToStr 12345).1 = 12345 :=
  uintToStr_spec.2.2 12345 (by decide)

/-- C9: for every uint16_t value the returned length is between 1 and 5,
and for every value in [1, 65535] the first written character is a decimal
digit other than the zero digit (no leading zero). -/
theorem uintToStr_digits_spec (v : Nat) (hv : v ≤ 65535) :
    (1 ≤ v → 49 ≤ (uintToStr v).1.headD 0 ∧ (uintToStr v).1.headD 0 ≤ 57)
    ∧ 1 ≤ (uintToStr v).2 ∧ (uintToStr v).2 ≤ 5 := by
  refine ⟨fun h1 => ?_, ?_, ?_⟩
  · rw [uintToStr_fst v hv]
    exact toDigitsRev_msd v h1
  · rw [uintToStr_snd]
    exact toDigitsRev_length_pos v
  · rw [uintToStr_snd]
    have h5 : (10 : Nat) ^ (4 + 1) = 100000 := by norm_num
    exact toDigitsRev_length_le 4 v (by omega)

/-- Witness for uintToStr_digits_spec at v = 90. -/
theorem uintToStr_digits_spec_witness :
    (49 ≤ (uintToStr 90).1.headD 0 ∧ (uintToStr 90).1.headD 0 ≤ 57)
    ∧ 1 ≤ (uintToStr 90).2 ∧ (uintToStr 90).2 ≤ 5 := by
  have h := uintToStr_digits_spec 90 (by decide)
  exact ⟨h.1 (by decide), h.2⟩

/-- The reversal loop counter is bounded by half the distance between the
two cursors. -/
theorem revLoopItersGo_le : ∀ f i j : Nat, revLoopItersGo f i j ≤ (j + 1 - i) / 2 := by
  intro f
  induction f with
  | zero => intro i j; simp [revLoopItersGo]
  | succ f ih =>
      intro i j
      show (if i < j then 1 + revLoopItersGo f (i + 1) (j - 1) else 0) ≤ _
      by_cases hij : i < j
      · rw [if_pos hij]
        have := ih (i + 1) (j - 1)
        omega
      · rw [if_neg hij]
        omega

/-- C10: on the uint16_t domain the digit-extraction do/while loop of
uintToStr runs at most 5 iterations, and the in-place reversal loop runs
at most floor(charsWritten / 2) iterations, so both loops terminate. -/
theorem uintToStr_loop_bounds (v : Nat) (hv : v ≤ 65535) :
    digitLoopIters v ≤ 5
    ∧ revLoopIters (uintToStr v).2 ≤ (uintToStr v).2 / 2 := by
  constructor
  · have h5 : (10 : Nat) ^ (4 + 1) = 100000 := by norm_num
    exact toDigitsRev_length_le 4 v (by omega)
  · have hle := revLoopItersGo_le (uintToStr v).2 0 ((uintToStr v).2 - 1)
    have hpos : 1 ≤ (uintToStr v).2 := by
      rw [uintToStr_snd]
      exact toDigitsRev_length_pos v
    show revLoopItersGo (uintToStr v).2 0 ((uintToStr v).2 - 1) ≤ _
    omega

/-- Witness for uintToStr_loop_bounds at v = 65535. -/
theorem uintToStr_loop_bounds_witness :
    digitLoopIters 65535 ≤ 5
    ∧ revLoopIters (uintToStr 65535).2 ≤ (uintToStr 65535).2 / 2 :=
  uintToStr_loop_bounds 65535 (by decide)

/-! ## Clearing a row -/

/-- LCD_SetY contributes no data bytes to a trace. -/
theorem filter_setY (y : Nat) : (LCD_SetY y).filter isDataByte = [] := by
  unfold LCD_SetY LCD_SendCommand
  split <;> rfl

/-- LCD_SetX contributes no data bytes to a trace. -/
theorem filter_setX (x : Nat) : (LCD_SetX x).filter isDataByte = [] := by
  unfold LCD_SetX LCD_SendCommand
  split <;> rfl

/-- Zero data bytes survive the data filter unchanged. -/
theorem filter_replicate_data :
    ∀ n : Nat, (List.replicate n (LCDByte.data 0)).filter isDataByte
      = List.replicate n (LCDByte.data 0) := by
  intro n
  induction n with
  | zero => rfl
  | succ n ih => simp [List.replicate_succ, List.filter_cons, isDataByte, ih]

/-- C8: LCD_ClearRow first addresses row y and start column x, then emits
exactly 84 - x zero data bytes when x is at most 83; for any uint8_t start
column of 84 or more the signed loop bound is non-positive and no data
byte is emitted at all. -/
theorem clearRow_spec (y x : Nat) (hx : x ≤ 255) :
    LCD_ClearRow y x
      = LCD_SetY y ++ LCD_SetX x ++ List.replicate (84 - x) (LCDByte.data 0)
    ∧ (x ≤ 83 → ((LCD_ClearRow y x).filter isDataByte).length = 84 - x)
    ∧ (84 ≤ x → (LCD_ClearRow y x).filter isDataByte = []) := by
  have hcount : clearRowCount x = 84 - x := by
    unfold clearRowCount
    omega
  have heq : LCD_ClearRow y x
      = LCD_SetY y ++ LCD_SetX x ++ List.replicate (84 - x) (LCDByte.data 0) := by
    unfold LCD_ClearRow
    rw [flatten_sendData_zero, hcount]
  have hfilter : (LCD_ClearRow y x).filter isDataByte
      = List.replicate (84 - x) (LCDByte.data 0) := by
    rw [heq, List.filter_append, List.filter_append, filter_setY, filter_setX,
      filter_replicate_data]
    rfl
  refine ⟨heq, fun _ => ?_, fun h84 => ?_⟩
  · rw [hfilter, List.length_replicate]
  · rw [hfilter]
    have : 84 - x = 0 := by omega
    rw [this]
    rfl

/-- Witness for clearRow_spec at start columns 10 (in range) and 200
(beyond the display). -/
theorem clearRow_spec_witness :
    LCD_ClearRow 4 10
      = LCD_SetY 4 ++ LCD_SetX 10 ++ List.replicate (84 - 10) (LCDByte.data 0)
    ∧ ((LCD_ClearRow 4 10).filter isDataByte).length = 84 - 10
    ∧ (LCD_ClearRow 4 200).filter isDataByte = [] := by
  have h1 := clearRow_spec 4 10 (by decide)
  have h2 := clearRow_spec 4 200 (by decide)
  exact ⟨h1.1, h1.2.1 (by decide), h2.2.2 (by decide)⟩

/-! ## Centering -/

/-- C4: for every string of in-range characters whose rendered pixel width
w (5 columns per character plus one column per edge-touching glyph side)
is at most 84, LCD_PrintStringCentered issues the single setColumn command
for start column floor((84 - w) / 2) before printing the string, the
printed trace is exactly w bytes long, and start + w never exceeds the 84
display columns. -/
theorem printStringCentered_spec (tab : Nat → Nat → Nat) (str : List Nat)
    (hin : ∀ c ∈ str, 32 ≤ c) (hw : stringWidth tab str ≤ 84) :
    LCD_PrintStringCentered tab str
      = LCDByte.cmd (0x80 ||| ((84 - stringWidth tab str) / 2))
        :: LCD_PrintString tab str
    ∧ (84 - stringWidth tab str) / 2 + stringWidth tab str ≤ 84
    ∧ (LCD_PrintString tab str).length = stringWidth tab str := by
  have hnum : numColOf tab str = stringWidth tab str := by
    rw [numColOf_eq_width]
    omega
  refine ⟨?_, by omega, printString_length tab str⟩
  unfold LCD_PrintStringCentered
  rw [hnum]
  unfold centeredX
  rw [if_pos hw]
  unfold LCD_SetX
  rw [if_neg (by omega : ¬ 83 < (84 - stringWidth tab str) / 2)]
  rfl

/-- Witness for printStringCentered_spec on the two-character string HI
with the blank glyph table (width 10, start column 37). -/
theorem printStringCentered_spec_witness :
    LCD_PrintStringCentered tab0 [72, 73]
      = LCDByte.cmd (0x80 ||| ((84 - stringWidth tab0 [72, 73]) / 2))
        :: LCD_PrintString tab0 [72, 73]
    ∧ (84 - stringWidth tab0 [72, 73]) / 2 + stringWidth tab0 [72, 73] ≤ 84
    ∧ (LCD_PrintString tab0 [72, 73]).length = stringWidth tab0 [72, 73] :=
  printStringCentered_spec tab0 [72, 73] (by decide) (by decide)

/-! ## Measurement rendering -/

/-- C5: LCD_PrintMeasurement with any value strictly greater than 4500
clears row 2 from column 0, addresses the row, and renders the centered
OUT OF RANGE literal regardless of the unit text; with value exactly 4500
and unit mm it renders the centered concatenation 4500mm, the decimal
digits immediately followed by the unit suffix with no separator. -/
theorem printMeasurement_spec (tab : Nat → Nat → Nat) (dist : Nat)
    (units : List Nat) (h : 4500 < dist) :
    LCD_PrintMeasurement tab dist units
      = LCD_ClearRow 2 0 ++ LCD_SetY 2 ++ LCD_PrintStringCentered tab outOfRangeText
    ∧ LCD_PrintMeasurement tab 4500 [109, 109]
      = LCD_ClearRow 2 0 ++ LCD_SetY 2
        ++ LCD_PrintStringCentered tab [52, 53, 48, 48, 109, 109] := by
  constructor
  · unfold LCD_PrintMeasurement
    rw [if_pos h]
  · unfold LCD_PrintMeasurement
    rw [if_neg (by omega), show (uintToStr 4500).1 = [52, 53, 48, 48] from by decide]
    rfl

/-- Witness for printMeasurement_spec at dist = 4501 with unit mm. -/
theorem printMeasurement_spec_witness :
    LCD_PrintMeasurement tab0 4501 [109, 109]
      = LCD_ClearRow 2 0 ++ LCD_SetY 2 ++ LCD_PrintStringCentered tab0 outOfRangeText
    ∧ LCD_PrintMeasurement tab0 4500 [109, 109]
      = LCD_ClearRow 2 0 ++ LCD_SetY 2
        ++ LCD_PrintStringCentered tab0 [52, 53, 48, 48, 109, 109] :=
  printMeasurement_spec tab0 4501 [109, 109] (by decide)

/-- C1: the dual-measurement renderer does NOT gate its second value.  The
C condition `temp > 158 || temp < 0 || temp > 158 || temp < 0` tests only
temp, so the call with temp = 100 (unit C, in range) and temp2 = 200
(unit F, above the declared ceiling 158) renders the composite line
100C 200F instead of the OUT OF RANGE fallback the spec requires.  This
contradicts spec section 4.5 and the testable property in section 8; the
duplicated disjunct pair is a copy-paste slip for a temp2 test. -/
theorem printTempMeasurement_gap :
    LCD_PrintTempMeasurement tab0 100 [67] 200 [70]
      = LCD_ClearRow 4 0 ++ LCD_SetY 4
        ++ LCD_PrintStringCentered tab0 [49, 48, 48, 67, 32, 50, 48, 48, 70]
    ∧ LCD_PrintTempMeasurement tab0 100 [67] 200 [70]
      ≠ LCD_ClearRow 4 0 ++ LCD_SetY 4 ++ LCD_PrintStringCentered tab0 outOfRangeText := by
  decide
